import Mathlib

/-!
Shallow embedding of the `AudioMixer` engine from `src/js/zoneDebugMap.js`
(the `AudioMixer` class): zone registration (`addAudioZone`), the per-zone
volume computation and per-layer target-volume aggregation of
`updateLocationAudio`, the oneshot trigger pass, the part start protocol
(`startPart`), and session `reset`.

Modelling conventions:
- JavaScript numbers are modelled as `ℚ`.  The only falsy number in the
  model is `0` (`NaN` is not representable); `x || d` on an optional
  numeric field is `jsNumOr`.
- Positions enter the engine only through `calculateDistance(position,
  zone.center)` (a haversine, transcendental).  Theorems therefore
  quantify over the computed distance `d : ℚ` (respectively a per-zone
  distance function `dist : Zone → ℚ`) instead of over raw coordinates.
- Web Audio objects (`BufferSource`, `GainNode`) are identified by handles
  allocated from a counter `nextHandle`; a freshly created source gets the
  current counter value, so a handle `≥` the counter at call time is new.
- Gain automation is modelled by its scheduled target value; ramp
  durations do not affect the resulting state and are kept only as
  arguments.  Debug-panel strings are modelled where a claim mentions the
  branch (`startPart`'s waiting report) and elided elsewhere.
-/

namespace TheWalk

/-- A registered audio zone, as stored in `this.audioZones` by
`addAudioZone` (zoneDebugMap.js lines 402-414). -/
structure Zone where
  id : String
  center : ℚ × ℚ
  radius : ℚ
  audioLayers : List String
  fadeDistance : ℚ
  maxVolume : ℚ
  isOneshot : Bool
deriving Repr, DecidableEq

/-- The raw `config` object passed to `addAudioZone`: `fadeDistance`,
`maxVolume` and `isOneshot` may be absent (`none`). -/
structure ZoneConfig where
  id : String
  center : ℚ × ℚ
  radius : ℚ
  audioLayers : List String
  fadeDistance : Option ℚ
  maxVolume : Option ℚ
  isOneshot : Option Bool
deriving Repr, DecidableEq

/-- JavaScript `x || dflt` for an optional numeric field: an absent field
or the falsy number `0` yields the default. -/
def jsNumOr (v : Option ℚ) (dflt : ℚ) : ℚ :=
  match v with
  | none => dflt
  | some x => if x = 0 then dflt else x

/-- JavaScript `b || false` for an optional boolean field. -/
def jsBoolOr (v : Option Bool) : Bool :=
  match v with
  | none => false
  | some b => b

/-- The zone object literal built inside `addAudioZone` (lines 403-411):
`fadeDistance: config.fadeDistance || 50`, `maxVolume: config.maxVolume ||
1.0`, `isOneshot: config.isOneshot || false`. -/
def normalizeZone (config : ZoneConfig) : Zone :=
  { id := config.id
    center := config.center
    radius := config.radius
    audioLayers := config.audioLayers
    fadeDistance := jsNumOr config.fadeDistance 50
    maxVolume := jsNumOr config.maxVolume 1
    isOneshot := jsBoolOr config.isOneshot }

/-- `addAudioZone` (lines 402-414): builds the normalized zone object and
unconditionally pushes it onto `this.audioZones`.  There is no geometry
validation in the source. -/
def addAudioZone (zones : List Zone) (config : ZoneConfig) : List Zone :=
  zones ++ [normalizeZone config]

/-- The per-zone volume computation of `updateLocationAudio` Step 2
(lines 692-700), with the already-computed distance `d` as argument:
`if (distance <= zone.radius) { fadeStart = max(0, radius - fadeDistance);
volume = distance <= fadeStart ? maxVolume
       : maxVolume * ((radius - distance) / fadeDistance) }`. -/
def zoneVolume (z : Zone) (d : ℚ) : ℚ :=
  if d ≤ z.radius then
    let fadeStart := max 0 (z.radius - z.fadeDistance)
    if d ≤ fadeStart then z.maxVolume
    else z.maxVolume * ((z.radius - d) / z.fadeDistance)
  else 0

/-- The contribution formula exactly as the specification words it
(spec §4.3): 0 if `d` exceeds the radius; `maxVolume` on the core
`d ≤ max(0, radius − fadeDistance)`; the linear ramp otherwise.  Written
from the spec, to be compared with `zoneVolume` (written from the code). -/
def specZoneContribution (z : Zone) (d : ℚ) : ℚ :=
  if z.radius < d then 0
  else if d ≤ max 0 (z.radius - z.fadeDistance) then z.maxVolume
  else z.maxVolume * ((z.radius - d) / z.fadeDistance)

/-- `zoneVolume` with the ramp division made explicit: `none` exactly when
the ramp branch would divide by `fadeDistance = 0`.  Used to state that
the code's computation never divides by zero. -/
def zoneVolumeChecked (z : Zone) (d : ℚ) : Option ℚ :=
  if d ≤ z.radius then
    let fadeStart := max 0 (z.radius - z.fadeDistance)
    if d ≤ fadeStart then some z.maxVolume
    else if z.fadeDistance = 0 then none
    else some (z.maxVolume * ((z.radius - d) / z.fadeDistance))
  else some 0

/-- The value `layerTargetVolumes.get(layerId) || 0` after the Step 2 loop
(lines 688-706), for one layer: fold over the zones in registration order,
taking `Math.max(currentTargetVol, volume)` at each non-oneshot zone whose
`audioLayers` contain the layer.  `dist z` is the computed distance from
the position to `z.center`. -/
def layerTargetVolume (zones : List Zone) (dist : Zone → ℚ) (layerId : String) : ℚ :=
  zones.foldl
    (fun acc z =>
      if z.isOneshot then acc
      else if layerId ∈ z.audioLayers then max acc (zoneVolume z (dist z))
      else acc) 0

/-- The per-layer target volume as the specification words it (§4.3): the
maximum over the individual contributions of all non-oneshot zones whose
layer list contains the layer (0 when there are none).  Written from the
spec, to be compared with `layerTargetVolume` (written from the code). -/
def specLayerTarget (zones : List Zone) (dist : Zone → ℚ) (layerId : String) : ℚ :=
  ((zones.filter (fun z => !z.isOneshot && layerId ∈ z.audioLayers)).map
      (fun z => specZoneContribution z (dist z))).foldl max 0

/-- The oneshot trigger radius `Math.max(1, zone.radius || 10)`
(line 630). -/
def triggerRadius (z : Zone) : ℚ :=
  max 1 (if z.radius = 0 then 10 else z.radius)

/-- The body of the Step 1 `forEach` of `updateLocationAudio` for one
oneshot zone (lines 642-672), on the pair (playedOneshots, zones fired so
far this call).  In order: the in-range/not-yet-played guard, the
finale-completed block, the finale prerequisite (`oneshot_9`) block, and
finally `playedOneshots.add(zone.id)` together with firing the zone. -/
def oneshotZoneStep (acc : List String × List String) (z : Zone) (d : ℚ) :
    List String × List String :=
  if d ≤ triggerRadius z ∧ z.id ∉ acc.1 then
    if "oneshot_finale" ∈ acc.1 ∧ z.id ≠ "oneshot_finale" then acc
    else if z.id = "oneshot_finale" ∧ "oneshot_9" ∉ acc.1 then acc
    else (z.id :: acc.1, acc.2 ++ [z.id])
  else acc

/-- One iteration of the Step 1 `forEach` (line 626-627): non-oneshot
zones are skipped (`if (!zone.isOneshot) return`). -/
def oneshotFoldStep (dist : Zone → ℚ) (acc : List String × List String) (z : Zone) :
    List String × List String :=
  if z.isOneshot then oneshotZoneStep acc z (dist z) else acc

/-- Step 1 of `updateLocationAudio` (lines 626-672): visit every zone in
registration order, skipping non-oneshot zones; returns the updated
`playedOneshots` and the list of zone ids fired during this call. -/
def oneshotStep (zones : List Zone) (dist : Zone → ℚ) (played : List String) :
    List String × List String :=
  zones.foldl (oneshotFoldStep dist) (played, [])

/-- One entry of `this.audioLayers`.  `buffer` records whether the decoded
audio buffer is present; `source`/`gain` are the running
`BufferSource`/`GainNode` (the gain by its scheduled target value),
`sourceLoop` the source's loop flag. -/
structure AudioLayer where
  buffer : Bool
  source : Option Nat
  sourceLoop : Bool
  gain : Option ℚ
  isPlaying : Bool
  volume : ℚ
  url : Option String
deriving Repr, DecidableEq

/-- Association-list lookup, modelling `Map.get`. -/
def assocFind {β : Type} : List (String × β) → String → Option β
  | [], _ => none
  | (k, v) :: rest, key => if k = key then some v else assocFind rest key

/-- Association-list update, modelling `Map.set` (replace in place, append
when absent). -/
def assocSet {β : Type} : List (String × β) → String → β → List (String × β)
  | [], key, val => [(key, val)]
  | (k, v) :: rest, key, val =>
      if k = key then (k, val) :: rest else (k, v) :: assocSet rest key val

/-- The mutable mixer session state (the fields of `AudioMixer` the
verified operations touch).  `nextHandle` is the allocation counter for
source/gain handles. -/
structure MixerState where
  audioLayers : List (String × AudioLayer)
  layerToPart : List (String × String)
  partToLayers : List (String × List String)
  startedParts : List String
  playedOneshots : List String
  activeOneshots : List String
  layerGains : List (String × Nat)
  nextHandle : Nat
  masterVolume : ℚ
  lastDebugMessage : String
deriving Repr, DecidableEq

/-- Replace one layer's record in the state. -/
def setLayer (st : MixerState) (layerId : String) (l : AudioLayer) : MixerState :=
  { st with audioLayers := assocSet st.audioLayers layerId l }

/-- The per-layer body of `startPart`'s starting loop (lines 376-393):
guard on missing layer or buffer, skip layers already playing, otherwise
create a fresh looping source with its gain set to 0, mark the layer
playing, and record the gain in `layerGains`. -/
def startPartLayer (st : MixerState) (layerId : String) : MixerState :=
  match assocFind st.audioLayers layerId with
  | none => st
  | some l =>
    if !l.buffer then st
    else if l.isPlaying then st
    else
      let st' := setLayer st layerId
        { l with source := some st.nextHandle, sourceLoop := true,
                 gain := some 0, isPlaying := true }
      { st' with nextHandle := st'.nextHandle + 1,
                 layerGains := assocSet st'.layerGains layerId st.nextHandle }

/-- The `notLoaded` list computed inside `startPart` (lines 360-368):
the members whose layer record is missing or has no buffer. -/
def notLoadedOf (st : MixerState) (layerSet : List String) : List String :=
  layerSet.filter (fun lid =>
    match assocFind st.audioLayers lid with
    | none => true
    | some l => !l.buffer)

/-- `startPart(partId)` (lines 342-399): no-op on a falsy part id, an
already-started part, or a part with no registered layers; when some
member lacks a buffer, only the waiting debug report is written; otherwise
every member is started via `startPartLayer` and the part is marked
started. -/
def startPart (st : MixerState) (partId : String) : MixerState :=
  if partId = "" then st
  else if partId ∈ st.startedParts then st
  else
    match assocFind st.partToLayers partId with
    | none => st
    | some layerSet =>
      if layerSet.isEmpty then st
      else
        let notLoaded := notLoadedOf st layerSet
        if !notLoaded.isEmpty then
          { st with lastDebugMessage :=
              "Part " ++ partId ++ " waiting for: " ++ String.intercalate ", " notLoaded }
        else
          let st' := layerSet.foldl startPartLayer st
          { st' with startedParts := partId :: st'.startedParts,
                     lastDebugMessage :=
                       "Started " ++ partId ++ " (" ++ toString layerSet.length ++ " layers)" }

/-- `ensureLayerLoaded` (lines 253-296) with the load transport modelled
by the oracle `loadOk : layerId → Bool`: returns the state after the load
settles and whether the returned promise resolved (`true`) or rejected
(`false`).  A successful `loadAudio` (lines 225-250) sets the buffer while
preserving every other field of the layer. -/
def ensureLayerLoaded (loadOk : String → Bool) (st : MixerState) (layerId : String) :
    MixerState × Bool :=
  match assocFind st.audioLayers layerId with
  | none => (st, true)
  | some l =>
    if l.buffer then (st, true)
    else
      match l.url with
      | none => (st, true)
      | some _ =>
        if loadOk layerId then (setLayer st layerId { l with buffer := true }, true)
        else (st, false)

/-- `playLayer(layerId, volume)` (lines 417-470): requires a loaded
buffer; replaces any existing source by a fresh looping one whose gain
ramps from 0 to `volume * masterVolume`, and marks the layer playing. -/
def playLayer (st : MixerState) (layerId : String) (volume : ℚ) : MixerState :=
  match assocFind st.audioLayers layerId with
  | none => st
  | some l =>
    if !l.buffer then st
    else
      let st' := setLayer st layerId
        { l with source := some st.nextHandle, sourceLoop := true,
                 gain := some (volume * st.masterVolume), isPlaying := true }
      { st' with nextHandle := st'.nextHandle + 1 }

/-- `fadeLayer(layerId, targetVolume, duration)` (lines 580-606): ramps
the layer's gain node (or the part-managed one recorded in `layerGains`)
to `targetVolume * masterVolume` and records `layer.volume`.  The ramp
`duration` does not affect the resulting state. -/
def fadeLayer (st : MixerState) (layerId : String) (targetVolume : ℚ) (_duration : ℚ) :
    MixerState :=
  match assocFind st.audioLayers layerId with
  | none => st
  | some l =>
    if l.gain.isSome then
      setLayer st layerId
        { l with gain := some (targetVolume * st.masterVolume), volume := targetVolume }
    else
      match assocFind st.layerGains layerId with
      | some _ => setLayer st layerId { l with volume := targetVolume }
      | none => st

/-- `reset()` (lines 874-887): stops everything and clears the session
sets; every layer keeps its buffer and url but loses its source, gain and
playing flag. -/
def reset (st : MixerState) : MixerState :=
  { st with
      startedParts := []
      playedOneshots := []
      activeOneshots := []
      layerGains := []
      audioLayers := st.audioLayers.map (fun p =>
        (p.1, { p.2 with isPlaying := false, source := none, gain := none })) }

/-- Append a string to a list unless already present, modelling insertion
into a JS `Set`/`Map` key order. -/
def insertUniq (acc : List String) (s : String) : List String :=
  if s ∈ acc then acc else acc ++ [s]

/-- The key set of `layerTargetVolumes` after Step 2 (lines 688-706): the
layers referenced by some non-oneshot zone, in first-reference order
(`Map.set` is called for every such layer, also at volume 0). -/
def musicLayerIds (zones : List Zone) : List String :=
  zones.foldl
    (fun acc z => if z.isOneshot then acc else z.audioLayers.foldl insertUniq acc)
    []

/-- Step 3's `partsToStart` set (lines 709-717): parts of layers whose
target volume is positive, excluding falsy part ids and parts already
started. -/
def partsToStart (st : MixerState) (zones : List Zone) (dist : Zone → ℚ) : List String :=
  (musicLayerIds zones).foldl
    (fun acc lid =>
      if layerTargetVolume zones dist lid > 0 then
        match assocFind st.layerToPart lid with
        | some pid =>
            if pid = "" then acc
            else if pid ∈ st.startedParts then acc
            else insertUniq acc pid
        | none => acc
      else acc)
    []

/-- The `await Promise.all(loadPromises)` of Step 3 for one part's member
list (lines 722-724): every load runs (successful loads keep their state
effect), and the combined promise resolves only when all did. -/
def loadPartMembers (loadOk : String → Bool) (st : MixerState) :
    List String → MixerState × Bool
  | [] => (st, true)
  | lid :: rest =>
      let r := ensureLayerLoaded loadOk st lid
      let rest' := loadPartMembers loadOk r.1 rest
      (rest'.1, r.2 && rest'.2)

/-- The Step 3 `for (const partId of partsToStart)` loop (lines 719-729):
load every member of the part, then `startPart`.  A rejected load makes
the `await` throw, which aborts the loop — and the rest of
`updateLocationAudio` — while keeping all state mutations made so far. -/
def startPendingParts (loadOk : String → Bool) (st : MixerState) :
    List String → MixerState × Bool
  | [] => (st, true)
  | pid :: rest =>
      let members := (assocFind st.partToLayers pid).getD []
      let r := loadPartMembers loadOk st members
      if r.2 then startPendingParts loadOk (startPart r.1 pid) rest
      else (r.1, false)

/-- The body of the Step 4 `forEach` (lines 732-754), for one layer id:
skip active oneshots and `oneshot`-prefixed ids, otherwise start or fade
to the target volume, or fade a playing layer out.  The accumulated list
records each `(layerId, targetVolume)` acted on; the delayed `stopLayer`
for partless layers is a later timer event and is not part of this
tick. -/
def applyFadeBody (targets : String → ℚ) (acc : MixerState × List (String × ℚ))
    (lid : String) : MixerState × List (String × ℚ) :=
  if lid ∈ acc.1.activeOneshots then acc
  else if lid.startsWith "oneshot" then acc
  else
    match assocFind acc.1.audioLayers lid with
    | none => acc
    | some layer =>
      let targetVolume := targets lid
      if targetVolume > 0 then
        if !layer.isPlaying then
          (playLayer acc.1 lid targetVolume, acc.2 ++ [(lid, targetVolume)])
        else
          (fadeLayer acc.1 lid targetVolume (2/5), acc.2 ++ [(lid, targetVolume)])
      else if layer.isPlaying then
        (fadeLayer acc.1 lid 0 (4/5), acc.2 ++ [(lid, 0)])
      else acc

/-- Step 4 of `updateLocationAudio`: the fade pass over every layer of
`audioLayers`. -/
def applyFades (st : MixerState) (targets : String → ℚ) :
    MixerState × List (String × ℚ) :=
  (st.audioLayers.map Prod.fst).foldl (applyFadeBody targets) (st, [])

/-- The result of the music portion of one `updateLocationAudio` call:
the state, the Step 4 fade trace, and whether a rejected load aborted the
call before Step 4. -/
structure TickResult where
  state : MixerState
  fades : List (String × ℚ)
  aborted : Bool
deriving Repr, DecidableEq

/-- Steps 2-4 of `updateLocationAudio` (lines 687-754), with per-zone
distances `dist` and the load transport `loadOk`.  When a member load of a
pending part rejects, the `await` at line 724 throws: Step 4 never runs
on that position sample and the error escapes to the caller
(`aborted = true`); mutations already made are kept. -/
def updateLocationAudioMusic (zones : List Zone) (dist : Zone → ℚ)
    (loadOk : String → Bool) (st : MixerState) : TickResult :=
  let r := startPendingParts loadOk st (partsToStart st zones dist)
  if r.2 then
    let f := applyFades r.1 (fun lid => layerTargetVolume zones dist lid)
    ⟨f.1, f.2, false⟩
  else ⟨r.1, [], true⟩

/-- A layer for which `ensureLayerLoaded`'s returned promise is
guaranteed to resolve: its record is absent, or its buffer is already
present, or it has no URL to load from, or its load succeeds. -/
def loadableLayer (loadOk : String → Bool) (st : MixerState) (lid : String) : Prop :=
  ∀ l, assocFind st.audioLayers lid = some l →
    (l.buffer = true ∨ l.url = none ∨ loadOk lid = true)

/-! ### Concrete example data -/

/-- The end-to-end scenario zone of spec §8: radius 100 m, fadeDistance
20 m, maxVolume 1.0, single layer `L1`. -/
def exZone1 : Zone :=
  { id := "z1", center := (0, 0), radius := 100, audioLayers := ["L1"],
    fadeDistance := 20, maxVolume := 1, isOneshot := false }

/-- Overlap scenario: zone of maxVolume 0.5 covering layer `L`. -/
def zHalfEx : Zone :=
  { id := "zHalf", center := (0, 0), radius := 50, audioLayers := ["L"],
    fadeDistance := 10, maxVolume := 1/2, isOneshot := false }

/-- Overlap scenario: zone of maxVolume 0.8 covering layer `L`. -/
def zFourFifthsEx : Zone :=
  { id := "zFour", center := (0, 0), radius := 50, audioLayers := ["L"],
    fadeDistance := 10, maxVolume := 4/5, isOneshot := false }

/-- A zone definition with non-positive radius. -/
def cfgBadRadius : ZoneConfig :=
  { id := "bad", center := (0, 0), radius := -1, audioLayers := ["L1"],
    fadeDistance := none, maxVolume := none, isOneshot := none }

/-- A zone definition carrying explicit `fadeDistance: 0` and
`maxVolume: 0`. -/
def cfgZeroFade : ZoneConfig :=
  { id := "z0", center := (0, 0), radius := 100, audioLayers := ["L1"],
    fadeDistance := some 0, maxVolume := some 0, isOneshot := none }

/-- A zone record with `fadeDistance = 0` (not producible through
`addAudioZone`, used for the fadeDistance-0 unreachability conjunct). -/
def zHardDisc : Zone :=
  { id := "hard", center := (0, 0), radius := 10, audioLayers := ["L1"],
    fadeDistance := 0, maxVolume := 1, isOneshot := false }

/-- The finale oneshot zone. -/
def finaleZoneEx : Zone :=
  { id := "oneshot_finale", center := (0, 0), radius := 10,
    audioLayers := ["oneshot_finale_layer"], fadeDistance := 50,
    maxVolume := 1, isOneshot := true }

/-- An ordinary numbered oneshot zone. -/
def oneshot2Ex : Zone :=
  { id := "oneshot_2", center := (0, 0), radius := 10,
    audioLayers := ["oneshot2"], fadeDistance := 50, maxVolume := 1,
    isOneshot := true }

/-- The unloaded layer record of the C8 scenario: no buffer yet, a URL to
load from. -/
def layerA8 : AudioLayer :=
  { buffer := false, source := none, sourceLoop := false, gain := none,
    isPlaying := false, volume := 1, url := some "audio/a.mp3" }

/-- A state with two layers: `a` (member of part `P`, unloaded, awaiting
its URL) and `b` (partless, loaded and playing). -/
def c8State : MixerState :=
  { audioLayers := [
      ("a", layerA8),
      ("b", { buffer := true, source := some 0, sourceLoop := true,
              gain := some (1/2), isPlaying := true, volume := 1, url := none })],
    layerToPart := [("a", "P")],
    partToLayers := [("P", ["a"])],
    startedParts := [], playedOneshots := [], activeOneshots := [],
    layerGains := [], nextHandle := 1, masterVolume := 7/10,
    lastDebugMessage := "" }

/-- Two overlapping music zones, one per layer of `c8State`. -/
def c8Zones : List Zone :=
  [{ id := "zA", center := (0, 0), radius := 100, audioLayers := ["a"],
     fadeDistance := 20, maxVolume := 1, isOneshot := false },
   { id := "zB", center := (0, 0), radius := 100, audioLayers := ["b"],
     fadeDistance := 20, maxVolume := 1, isOneshot := false }]

/-- A freshly constructed mixer state (the constructor's initial
fields). -/
def emptyMixerState : MixerState :=
  { audioLayers := [], layerToPart := [], partToLayers := [],
    startedParts := [], playedOneshots := [], activeOneshots := [],
    layerGains := [], nextHandle := 0, masterVolume := 7/10,
    lastDebugMessage := "" }

/-- A state whose part `p` has the single member `L1`, loaded and already
playing through a pre-existing non-looping source with nonzero gain, the
part itself not yet started. -/
def c4State : MixerState :=
  { audioLayers := [("L1",
      { buffer := true, source := some 5, sourceLoop := false,
        gain := some (9/10), isPlaying := true, volume := 1, url := none })],
    layerToPart := [("L1", "p")],
    partToLayers := [("p", ["L1"])],
    startedParts := [], playedOneshots := [], activeOneshots := [],
    layerGains := [], nextHandle := 7, masterVolume := 7/10,
    lastDebugMessage := "" }

/-- A state whose part `p` has the single member `L1`, loaded and not yet
playing, the part itself not yet started. -/
def c4Good : MixerState :=
  { audioLayers := [("L1",
      { buffer := true, source := none, sourceLoop := false,
        gain := none, isPlaying := false, volume := 1, url := none })],
    layerToPart := [("L1", "p")],
    partToLayers := [("p", ["L1"])],
    startedParts := [], playedOneshots := [], activeOneshots := [],
    layerGains := [], nextHandle := 7, masterVolume := 7/10,
    lastDebugMessage := "" }

/-! ### Lemmas -/

/-- Looking up the key just set yields the new value. -/
theorem assocFind_assocSet_self {β : Type} (ls : List (String × β)) (k : String) (v : β) :
    assocFind (assocSet ls k v) k = some v := by
  induction ls with
  | nil => simp [assocSet, assocFind]
  | cons p rest ih =>
      by_cases h : p.1 = k
      · simp [assocSet, assocFind, h]
      · simp [assocSet, assocFind, h, ih]

/-- Setting one key leaves every other key's lookup unchanged. -/
theorem assocFind_assocSet_other {β : Type} (ls : List (String × β)) (k k' : String)
    (v : β) (h : k' ≠ k) : assocFind (assocSet ls k v) k' = assocFind ls k' := by
  induction ls with
  | nil => simp [assocSet, assocFind, Ne.symm h]
  | cons p rest ih =>
      by_cases hp : p.1 = k
      · simp [assocSet, assocFind, hp, Ne.symm h]
      · by_cases hp' : p.1 = k'
        · simp [assocSet, assocFind, hp, hp', h]
        · simp [assocSet, assocFind, hp, hp', ih]

/-- `startPartLayer` does not touch the part registry, the started set,
or the layer states of other layers' keys. -/
theorem startPartLayer_partToLayers (st : MixerState) (lid : String) :
    (startPartLayer st lid).partToLayers = st.partToLayers := by
  unfold startPartLayer
  cases assocFind st.audioLayers lid with
  | none => rfl
  | some l =>
      dsimp only [setLayer]
      split_ifs <;> rfl

/-- `startPartLayer` never changes `startedParts`. -/
theorem startPartLayer_startedParts (st : MixerState) (lid : String) :
    (startPartLayer st lid).startedParts = st.startedParts := by
  unfold startPartLayer
  cases assocFind st.audioLayers lid with
  | none => rfl
  | some l =>
      dsimp only [setLayer]
      split_ifs <;> rfl

/-- The handle counter never decreases across `startPartLayer`. -/
theorem startPartLayer_nextHandle_mono (st : MixerState) (lid : String) :
    st.nextHandle ≤ (startPartLayer st lid).nextHandle := by
  unfold startPartLayer
  cases assocFind st.audioLayers lid with
  | none => exact le_refl _
  | some l =>
      dsimp only [setLayer]
      split_ifs
      · exact le_refl _
      · exact le_refl _
      · exact Nat.le_succ _

/-- `startPartLayer lid` leaves any other layer's record unchanged. -/
theorem startPartLayer_find_other (st : MixerState) (lid lid' : String) (h : lid' ≠ lid) :
    assocFind (startPartLayer st lid).audioLayers lid'
      = assocFind st.audioLayers lid' := by
  unfold startPartLayer
  cases assocFind st.audioLayers lid with
  | none => rfl
  | some l =>
      dsimp only [setLayer]
      split_ifs
      · rfl
      · rfl
      · exact assocFind_assocSet_other st.audioLayers lid lid' _ h

/-- `startPartLayer` is a no-op on a layer that is already playing. -/
theorem startPartLayer_noop_of_playing (st : MixerState) (lid : String)
    (l : AudioLayer) (hfind : assocFind st.audioLayers lid = some l)
    (hp : l.isPlaying = true) : startPartLayer st lid = st := by
  unfold startPartLayer
  rw [hfind]
  dsimp only [setLayer]
  split_ifs <;> rfl

/-- `startPartLayer` preserves the record of any playing layer exactly. -/
theorem startPartLayer_preserves_playing (st : MixerState) (lid lid' : String)
    (l : AudioLayer) (hfind : assocFind st.audioLayers lid' = some l)
    (hp : l.isPlaying = true) :
    assocFind (startPartLayer st lid).audioLayers lid' = some l := by
  by_cases he : lid' = lid
  · subst he
    rw [startPartLayer_noop_of_playing st lid' l hfind hp, hfind]
  · rw [startPartLayer_find_other st lid lid' he, hfind]

/-- `startPartLayer` preserves existence-with-loaded-buffer for every
layer key. -/
theorem startPartLayer_preserves_buffer (st : MixerState) (lid lid' : String)
    (h : ∃ l, assocFind st.audioLayers lid' = some l ∧ l.buffer = true) :
    ∃ l, assocFind (startPartLayer st lid).audioLayers lid' = some l
      ∧ l.buffer = true := by
  obtain ⟨l, hfind, hbuf⟩ := h
  by_cases he : lid' = lid
  · subst he
    unfold startPartLayer
    rw [hfind]
    dsimp only [setLayer]
    split_ifs with h1 h2
    · exact ⟨l, hfind, hbuf⟩
    · exact ⟨l, hfind, hbuf⟩
    · exact ⟨_, assocFind_assocSet_self st.audioLayers lid' _, hbuf⟩
  · rw [startPartLayer_find_other st lid lid' he]
    exact ⟨l, hfind, hbuf⟩

/-- On a loaded, non-playing layer, `startPartLayer` installs a fresh
looping source at the current handle with gain 0 and marks it playing. -/
theorem startPartLayer_starts (st : MixerState) (lid : String) (l : AudioLayer)
    (hfind : assocFind st.audioLayers lid = some l) (hbuf : l.buffer = true)
    (hp : l.isPlaying = false) :
    assocFind (startPartLayer st lid).audioLayers lid
      = some { l with source := some st.nextHandle, sourceLoop := true,
                      gain := some 0, isPlaying := true }
    ∧ (startPartLayer st lid).nextHandle = st.nextHandle + 1 := by
  unfold startPartLayer
  rw [hfind]
  dsimp only [setLayer]
  rw [if_neg (by simp [hbuf])]
  rw [if_neg (by simp [hp])]
  exact ⟨assocFind_assocSet_self st.audioLayers lid _, rfl⟩

/-- A single oneshot iteration never removes an id from
`playedOneshots`. -/
theorem oneshotZoneStep_played_mono (acc : List String × List String) (z : Zone) (d : ℚ) :
    acc.1 ⊆ (oneshotZoneStep acc z d).1 := by
  unfold oneshotZoneStep
  split_ifs
  · exact fun s hs => hs
  · exact fun s hs => hs
  · exact List.subset_cons_self _ _
  · exact fun s hs => hs

/-- A single oneshot iteration never removes an id from the fired
list. -/
theorem oneshotZoneStep_fired_mono (acc : List String × List String) (z : Zone) (d : ℚ) :
    acc.2 ⊆ (oneshotZoneStep acc z d).2 := by
  unfold oneshotZoneStep
  split_ifs
  · exact fun s hs => hs
  · exact fun s hs => hs
  · exact List.subset_append_left _ _
  · exact fun s hs => hs

/-- Fold-body version of `playedOneshots` monotonicity. -/
theorem oneshotFoldStep_played_mono (dist : Zone → ℚ) (acc : List String × List String)
    (z : Zone) : acc.1 ⊆ (oneshotFoldStep dist acc z).1 := by
  unfold oneshotFoldStep
  split_ifs
  · exact oneshotZoneStep_played_mono acc z (dist z)
  · exact fun s hs => hs

/-- Fold-body version of fired-list monotonicity. -/
theorem oneshotFoldStep_fired_mono (dist : Zone → ℚ) (acc : List String × List String)
    (z : Zone) : acc.2 ⊆ (oneshotFoldStep dist acc z).2 := by
  unfold oneshotFoldStep
  split_ifs
  · exact oneshotZoneStep_fired_mono acc z (dist z)
  · exact fun s hs => hs

/-- Any invariant preserved by the oneshot fold body is preserved by the
whole Step 1 pass. -/
theorem oneshotFold_inv (dist : Zone → ℚ) (I : List String × List String → Prop)
    (hstep : ∀ acc z, I acc → I (oneshotFoldStep dist acc z)) :
    ∀ (zones : List Zone) (acc : List String × List String),
      I acc → I (zones.foldl (oneshotFoldStep dist) acc) := by
  intro zones
  induction zones with
  | nil => intro acc h; exact h
  | cons z rest ih => intro acc h; exact ih _ (hstep acc z h)

/-- `playedOneshots` grows monotonically across a Step 1 pass. -/
theorem oneshotFoldl_played_mono (dist : Zone → ℚ) (zones : List Zone) :
    ∀ acc : List String × List String,
      acc.1 ⊆ (zones.foldl (oneshotFoldStep dist) acc).1 := by
  induction zones with
  | nil => intro acc; exact fun s hs => hs
  | cons z rest ih =>
      intro acc
      exact fun s hs => ih _ (oneshotFoldStep_played_mono dist acc z hs)

/-- The fired list grows monotonically across a Step 1 pass. -/
theorem oneshotFoldl_fired_mono (dist : Zone → ℚ) (zones : List Zone) :
    ∀ acc : List String × List String,
      acc.2 ⊆ (zones.foldl (oneshotFoldStep dist) acc).2 := by
  induction zones with
  | nil => intro acc; exact fun s hs => hs
  | cons z rest ih =>
      intro acc
      exact fun s hs => ih _ (oneshotFoldStep_fired_mono dist acc z hs)

/-- An id already in `playedOneshots` is never fired by the fold body,
and stays played. -/
theorem oneshotFoldStep_no_refire (dist : Zone → ℚ) (zid : String)
    (acc : List String × List String) (z : Zone)
    (h : zid ∈ acc.1 ∧ zid ∉ acc.2) :
    zid ∈ (oneshotFoldStep dist acc z).1 ∧ zid ∉ (oneshotFoldStep dist acc z).2 := by
  refine ⟨oneshotFoldStep_played_mono dist acc z h.1, ?_⟩
  unfold oneshotFoldStep oneshotZoneStep
  split_ifs with h0 h1 h2 h3
  · exact h.2
  · exact h.2
  · -- firing branch: the fired id is z.id ∉ acc.1, hence ≠ zid
    intro hmem
    rcases List.mem_append.mp hmem with hl | hr
    · exact h.2 hl
    · rcases List.mem_singleton.mp hr with rfl
      exact h1.2 h.1
  · exact h.2
  · exact h.2

/-- Everything fired during a Step 1 pass ends in `playedOneshots`. -/
theorem oneshotFoldStep_fired_played (dist : Zone → ℚ)
    (acc : List String × List String) (z : Zone)
    (h : ∀ t ∈ acc.2, t ∈ acc.1) :
    ∀ t ∈ (oneshotFoldStep dist acc z).2, t ∈ (oneshotFoldStep dist acc z).1 := by
  unfold oneshotFoldStep oneshotZoneStep
  split_ifs with h0 h1 h2 h3
  · exact h
  · exact h
  · intro t ht
    rcases List.mem_append.mp ht with hl | hr
    · exact List.mem_cons_of_mem _ (h t hl)
    · rcases List.mem_singleton.mp hr with rfl
      exact List.mem_cons_self _ _
  · exact h
  · exact h

/-- The finale can only be in the fired list if the prerequisite
`oneshot_9` is in `playedOneshots`. -/
theorem oneshotFoldStep_finale_gate (dist : Zone → ℚ)
    (acc : List String × List String) (z : Zone)
    (h : "oneshot_finale" ∈ acc.2 → "oneshot_9" ∈ acc.1) :
    "oneshot_finale" ∈ (oneshotFoldStep dist acc z).2 →
      "oneshot_9" ∈ (oneshotFoldStep dist acc z).1 := by
  have hpl := oneshotFoldStep_played_mono dist acc z
  unfold oneshotFoldStep oneshotZoneStep at hpl ⊢
  split_ifs at hpl ⊢ with h0 h1 h2 h3
  · exact fun hf => h hf
  · exact fun hf => h hf
  · intro hf
    rcases List.mem_append.mp hf with hl | hr
    · exact hpl (h hl)
    · rcases List.mem_singleton.mp hr with hz
      rcases not_and_or.mp h3 with hc | hc
      · exact absurd hz.symm hc
      · exact hpl (not_not.mp hc)
  · exact fun hf => h hf
  · exact fun hf => h hf

/-- Invariant: the finale either already fired this pass, or is still
absent from `playedOneshots`. -/
theorem oneshotFoldStep_finale_fresh (dist : Zone → ℚ)
    (acc : List String × List String) (z : Zone)
    (h : "oneshot_finale" ∈ acc.2 ∨ "oneshot_finale" ∉ acc.1) :
    "oneshot_finale" ∈ (oneshotFoldStep dist acc z).2
      ∨ "oneshot_finale" ∉ (oneshotFoldStep dist acc z).1 := by
  unfold oneshotFoldStep oneshotZoneStep
  split_ifs with h0 h1 h2 h3
  · exact h
  · exact h
  · rcases h with hf | hnp
    · exact Or.inl (List.mem_append_left _ hf)
    · by_cases hz : z.id = "oneshot_finale"
      · exact Or.inl (List.mem_append_right _ (hz ▸ List.mem_singleton_self _))
      · refine Or.inr ?_
        intro hmem
        rcases List.mem_cons.mp hmem with he | ht
        · exact hz he.symm
        · exact hnp ht
  · exact h
  · exact h

/-- If the prerequisite is played and the finale zone is in range, the
Step 1 pass fires the finale (unless it already fired this pass). -/
theorem oneshotFold_finale_fires (dist : Zone → ℚ) (zf : Zone)
    (hone : zf.isOneshot = true) (hid : zf.id = "oneshot_finale")
    (hd : dist zf ≤ triggerRadius zf) :
    ∀ (zones : List Zone) (acc : List String × List String), zf ∈ zones →
      "oneshot_9" ∈ acc.1 →
      ("oneshot_finale" ∈ acc.2 ∨ "oneshot_finale" ∉ acc.1) →
      "oneshot_finale" ∈ (zones.foldl (oneshotFoldStep dist) acc).2 := by
  intro zones
  induction zones with
  | nil => intro acc hmem; exact absurd hmem (List.not_mem_nil zf)
  | cons z rest ih =>
      intro acc hmem h9 hfresh
      rcases List.mem_cons.mp hmem with rfl | htail
      · -- the finale zone is processed now
        have hfired : "oneshot_finale" ∈ (oneshotFoldStep dist acc zf).2 := by
          unfold oneshotFoldStep
          rw [if_pos hone]
          rcases hfresh with hf | hnp
          · exact oneshotZoneStep_fired_mono acc zf (dist zf) hf
          · unfold oneshotZoneStep
            rw [if_pos ⟨hd, fun hmem' => hnp (hid ▸ hmem')⟩]
            rw [if_neg (fun hc => hnp hc.1)]
            rw [if_neg (fun hc => hc.2 h9)]
            exact List.mem_append_right _ (hid ▸ List.mem_singleton_self _)
        exact oneshotFoldl_fired_mono dist rest _ hfired
      · exact ih _ htail
          (oneshotFoldStep_played_mono dist acc z h9)
          (oneshotFoldStep_finale_fresh dist acc z hfresh)

/-- Once the finale has been played, the whole Step 1 pass is a no-op:
nothing fires and `playedOneshots` is unchanged. -/
theorem oneshotFoldStep_noop_after_finale (dist : Zone → ℚ)
    (acc : List String × List String) (z : Zone)
    (h : "oneshot_finale" ∈ acc.1) : oneshotFoldStep dist acc z = acc := by
  unfold oneshotFoldStep oneshotZoneStep
  split_ifs with h0 h1 h2 h3
  · rfl
  · rfl
  · exfalso
    rcases not_and_or.mp h2 with hc | hc
    · exact hc h
    · exact h1.2 (not_not.mp hc ▸ h)
  · rfl
  · rfl

/-- Playing layers survive the whole `startPart` starting loop
untouched. -/
theorem startPartFold_preserves_playing :
    ∀ (ls : List String) (st : MixerState) (lid : String) (l : AudioLayer),
      assocFind st.audioLayers lid = some l → l.isPlaying = true →
      assocFind (ls.foldl startPartLayer st).audioLayers lid = some l := by
  intro ls
  induction ls with
  | nil => intro st lid l h _; exact h
  | cons hd t ih =>
      intro st lid l h hp
      exact ih _ lid l (startPartLayer_preserves_playing st hd lid l h hp) hp

/-- The handle counter never decreases across the starting loop. -/
theorem startPartFold_nextHandle_mono :
    ∀ (ls : List String) (st : MixerState),
      st.nextHandle ≤ (ls.foldl startPartLayer st).nextHandle := by
  intro ls
  induction ls with
  | nil => intro st; exact le_refl _
  | cons hd t ih =>
      intro st
      exact le_trans (startPartLayer_nextHandle_mono st hd) (ih _)

/-- The starting loop leaves the part registry unchanged. -/
theorem startPartFold_partToLayers :
    ∀ (ls : List String) (st : MixerState),
      (ls.foldl startPartLayer st).partToLayers = st.partToLayers := by
  intro ls
  induction ls with
  | nil => intro st; rfl
  | cons hd t ih =>
      intro st
      rw [List.foldl_cons, ih, startPartLayer_partToLayers]

/-- The starting loop leaves `startedParts` unchanged. -/
theorem startPartFold_startedParts :
    ∀ (ls : List String) (st : MixerState),
      (ls.foldl startPartLayer st).startedParts = st.startedParts := by
  intro ls
  induction ls with
  | nil => intro st; rfl
  | cons hd t ih =>
      intro st
      rw [List.foldl_cons, ih, startPartLayer_startedParts]

/-- After the starting loop over a list of loaded members, every member
is playing: those that were not playing hold a fresh looping source at a
newly allocated handle with gain 0, and those that already were playing
are exactly unchanged. -/
theorem startPartFold_main :
    ∀ (ls : List String) (st : MixerState),
      (∀ lid ∈ ls, ∃ l, assocFind st.audioLayers lid = some l ∧ l.buffer = true) →
      ∀ lid ∈ ls, ∃ l',
        assocFind (ls.foldl startPartLayer st).audioLayers lid = some l'
        ∧ l'.isPlaying = true
        ∧ (∀ l, assocFind st.audioLayers lid = some l → l.isPlaying = false →
            l'.sourceLoop = true ∧ l'.gain = some 0
            ∧ ∃ h, l'.source = some h ∧ st.nextHandle ≤ h)
        ∧ (∀ l, assocFind st.audioLayers lid = some l → l.isPlaying = true → l' = l) := by
  intro ls
  induction ls with
  | nil => intro st _ lid hmem; exact absurd hmem (List.not_mem_nil lid)
  | cons hd t ih =>
      intro st hload lid hmem
      have hload1 : ∀ lid' ∈ t,
          ∃ l, assocFind (startPartLayer st hd).audioLayers lid' = some l
            ∧ l.buffer = true :=
        fun lid' hm =>
          startPartLayer_preserves_buffer st hd lid'
            (hload lid' (List.mem_cons_of_mem hd hm))
      rw [List.foldl_cons]
      rcases List.mem_cons.mp hmem with rfl | hmemt
      · obtain ⟨l, hfind, hbuf⟩ := hload lid (List.mem_cons_self _ _)
        by_cases hp : l.isPlaying = true
        · have hnoop := startPartLayer_noop_of_playing st lid l hfind hp
          rw [hnoop]
          refine ⟨l, startPartFold_preserves_playing t st lid l hfind hp, hp, ?_, ?_⟩
          · intro l₀ h₀ hnp
            rw [hfind] at h₀
            obtain rfl := Option.some.inj h₀
            simp [hnp] at hp
          · intro l₀ h₀ _
            exact Option.some.inj (hfind.symm.trans h₀)
        · have hp' : l.isPlaying = false := by
            simpa using hp
          obtain ⟨hstart, _⟩ := startPartLayer_starts st lid l hfind hbuf hp'
          refine ⟨_, startPartFold_preserves_playing t _ lid _ hstart rfl, rfl, ?_, ?_⟩
          · intro l₀ h₀ _
            exact ⟨rfl, rfl, st.nextHandle, rfl, le_refl _⟩
          · intro l₀ h₀ hpl
            rw [hfind] at h₀
            obtain rfl := Option.some.inj h₀
            simp [hpl] at hp'
      · obtain ⟨l', hfind', hplay', hfresh', hkeep'⟩ :=
          ih (startPartLayer st hd) hload1 lid hmemt
        refine ⟨l', hfind', hplay', ?_, ?_⟩
        · intro l₀ h₀ hnp
          by_cases he : lid = hd
          · subst he
            obtain ⟨lh, hfindh, hbufh⟩ := hload lid (List.mem_cons_self _ _)
            rw [hfindh] at h₀
            obtain rfl := Option.some.inj h₀
            obtain ⟨hstart, _⟩ := startPartLayer_starts st lid lh hfindh hbufh hnp
            have hlnew := hkeep' _ hstart rfl
            rw [hlnew]
            exact ⟨rfl, rfl, st.nextHandle, rfl, le_refl _⟩
          · have heq := startPartLayer_find_other st hd lid he
            obtain ⟨hl1, hg1, hh, hs, hge⟩ := hfresh' l₀ (heq.trans h₀) hnp
            exact ⟨hl1, hg1, hh, hs,
              le_trans (startPartLayer_nextHandle_mono st hd) hge⟩
        · intro l₀ h₀ hpl
          by_cases he : lid = hd
          · subst he
            obtain ⟨lh, hfindh, hbufh⟩ := hload lid (List.mem_cons_self _ _)
            rw [hfindh] at h₀
            obtain rfl := Option.some.inj h₀
            have hnoop := startPartLayer_noop_of_playing st lid lh hfindh hpl
            exact hkeep' lh (by rw [hnoop]; exact hfindh) hpl
          · have heq := startPartLayer_find_other st hd lid he
            exact hkeep' l₀ (heq.trans h₀) hpl

/-- `startPart` on an already-started part is the identity. -/
theorem startPart_noop_started (st : MixerState) (p : String)
    (h : p ∈ st.startedParts) : startPart st p = st := by
  unfold startPart
  by_cases hp0 : p = ""
  · rw [if_pos hp0]
  · rw [if_neg hp0, if_pos h]

/-- `startPart` on a part with no registration is the identity. -/
theorem startPart_noop_nopart (st : MixerState) (p : String)
    (h : assocFind st.partToLayers p = none) : startPart st p = st := by
  unfold startPart
  by_cases hp0 : p = ""
  · rw [if_pos hp0]
  · by_cases hp1 : p ∈ st.startedParts
    · rw [if_neg hp0, if_pos hp1]
    · rw [if_neg hp0, if_neg hp1, h]

/-- `startPart` on a part with an empty member list is the identity. -/
theorem startPart_noop_empty (st : MixerState) (p : String) (ls : List String)
    (h : assocFind st.partToLayers p = some ls) (he : ls.isEmpty = true) :
    startPart st p = st := by
  unfold startPart
  by_cases hp0 : p = ""
  · rw [if_pos hp0]
  · by_cases hp1 : p ∈ st.startedParts
    · rw [if_neg hp0, if_pos hp1]
    · rw [if_neg hp0, if_neg hp1, h]
      dsimp only
      rw [if_pos he]

/-- The waiting branch of `startPart`: when some member lacks a buffer,
only the debug report changes. -/
theorem startPart_eq_waiting (st : MixerState) (p : String) (ls : List String)
    (hp0 : ¬(p = "")) (hp1 : p ∉ st.startedParts)
    (hfind : assocFind st.partToLayers p = some ls)
    (hemp : ls.isEmpty = false)
    (hwait : (notLoadedOf st ls).isEmpty = false) :
    startPart st p = { st with lastDebugMessage :=
      "Part " ++ p ++ " waiting for: " ++ String.intercalate ", " (notLoadedOf st ls) } := by
  unfold startPart
  rw [if_neg hp0, if_neg hp1, hfind]
  dsimp only
  rw [if_neg (by simp [hemp]), if_pos (by simp [hwait])]

/-- The success branch of `startPart`: all members loaded, so the
starting loop runs and the part is marked started. -/
theorem startPart_eq_success (st : MixerState) (p : String) (ls : List String)
    (hp0 : ¬(p = "")) (hp1 : p ∉ st.startedParts)
    (hfind : assocFind st.partToLayers p = some ls)
    (hemp : ls.isEmpty = false)
    (hall : (notLoadedOf st ls).isEmpty = true) :
    startPart st p = { ls.foldl startPartLayer st with
      startedParts := p :: (ls.foldl startPartLayer st).startedParts,
      lastDebugMessage :=
        "Started " ++ p ++ " (" ++ toString ls.length ++ " layers)" } := by
  unfold startPart
  rw [if_neg hp0, if_neg hp1, hfind]
  dsimp only
  rw [if_neg (by simp [hemp]), if_neg (by simp [hall])]

/-- `startPart` is idempotent: a second call on the same part id changes
nothing, in every branch. -/
theorem startPart_idem (st : MixerState) (p : String) :
    startPart (startPart st p) p = startPart st p := by
  by_cases hp0 : p = ""
  · have h1 : startPart st p = st := by unfold startPart; rw [if_pos hp0]
    rw [h1]
    exact h1
  · by_cases hp1 : p ∈ st.startedParts
    · have h1 := startPart_noop_started st p hp1
      rw [h1]
      exact h1
    · cases hfind : assocFind st.partToLayers p with
      | none =>
          have h1 := startPart_noop_nopart st p hfind
          rw [h1]
          exact h1
      | some ls =>
          cases hemp : ls.isEmpty with
          | true =>
              have h1 := startPart_noop_empty st p ls hfind hemp
              rw [h1]
              exact h1
          | false =>
              cases hwait : (notLoadedOf st ls).isEmpty with
              | false =>
                  have h1 := startPart_eq_waiting st p ls hp0 hp1 hfind hemp hwait
                  rw [h1]
                  exact startPart_eq_waiting _ p ls hp0 hp1 hfind hemp hwait
              | true =>
                  have h1 := startPart_eq_success st p ls hp0 hp1 hfind hemp hwait
                  rw [h1]
                  exact startPart_noop_started _ p (List.mem_cons_self _ _)

/-- The per-zone volume computed by the code agrees with the
specification's piecewise contribution formula, for every zone and every
distance. -/
theorem zoneVolume_eq_spec (z : Zone) (d : ℚ) :
    zoneVolume z d = specZoneContribution z d := by
  simp only [zoneVolume, specZoneContribution]
  rcases le_or_lt d z.radius with h | h
  · rw [if_pos h, if_neg (not_lt.mpr h)]
  · rw [if_neg (not_le.mpr h), if_pos h]

/-- The Step 2 fold for one layer, with a general accumulator, equals the
max-fold over the contributions of the zones that reference the layer. -/
theorem layerTarget_foldl (lid : String) (dist : Zone → ℚ) :
    ∀ (zones : List Zone) (acc : ℚ),
      zones.foldl
        (fun acc z =>
          if z.isOneshot then acc
          else if lid ∈ z.audioLayers then max acc (zoneVolume z (dist z))
          else acc) acc
      = ((zones.filter (fun z => !z.isOneshot && lid ∈ z.audioLayers)).map
          (fun z => zoneVolume z (dist z))).foldl max acc := by
  intro zones
  induction zones with
  | nil => intro acc; rfl
  | cons z rest ih =>
      intro acc
      by_cases h1 : z.isOneshot
      · simp [List.filter_cons, h1, ih]
      · by_cases h2 : lid ∈ z.audioLayers
        · simp [List.filter_cons, h1, h2, ih]
        · simp [List.filter_cons, h1, h2, ih]

/-- The per-layer target computed by the code equals the specification's
maximum over referencing zones. -/
theorem layerTargetVolume_eq_spec (zones : List Zone) (dist : Zone → ℚ) (lid : String) :
    layerTargetVolume zones dist lid = specLayerTarget zones dist lid := by
  unfold layerTargetVolume specLayerTarget
  rw [layerTarget_foldl]
  simp only [zoneVolume_eq_spec]

/-- Every zone produced by `addAudioZone` has a nonzero `fadeDistance`:
the JS `||` default replaces both an absent and a zero field. -/
theorem normalize_fadeDistance_ne_zero (config : ZoneConfig) :
    (normalizeZone config).fadeDistance ≠ 0 := by
  simp only [normalizeZone, jsNumOr]
  cases config.fadeDistance with
  | none => norm_num
  | some v =>
      by_cases hv : v = 0
      · simp [hv]
      · simp [hv]

/-- `ensureLayerLoaded` either leaves the state unchanged, or (on a
successful load) only sets the buffer of the requested layer. -/
theorem ensureLayerLoaded_state_cases (loadOk : String → Bool) (st : MixerState)
    (lid : String) :
    (ensureLayerLoaded loadOk st lid).1 = st
    ∨ ∃ l, assocFind st.audioLayers lid = some l ∧ l.buffer = false
        ∧ loadOk lid = true
        ∧ (ensureLayerLoaded loadOk st lid).1 = setLayer st lid { l with buffer := true } := by
  unfold ensureLayerLoaded
  cases hfl : assocFind st.audioLayers lid with
  | none => exact Or.inl rfl
  | some l =>
      cases hbuf : l.buffer with
      | true => exact Or.inl (by simp [hbuf])
      | false =>
          cases hurl : l.url with
          | none => exact Or.inl (by simp [hbuf, hurl])
          | some u =>
              cases hok : loadOk lid with
              | true => exact Or.inr ⟨l, rfl, hbuf, rfl, by simp [hbuf, hurl]⟩
              | false => exact Or.inl (by simp [hbuf, hurl, hok])

/-- A loadable layer's `ensureLayerLoaded` promise resolves. -/
theorem ensureLayerLoaded_ok (loadOk : String → Bool) (st : MixerState) (lid : String)
    (h : loadableLayer loadOk st lid) : (ensureLayerLoaded loadOk st lid).2 = true := by
  unfold ensureLayerLoaded
  cases hfl : assocFind st.audioLayers lid with
  | none => rfl
  | some l =>
      by_cases hbuf : l.buffer = true
      · simp [hbuf]
      · have hb : l.buffer = false := by simpa using hbuf
        cases hurl : l.url with
        | none => simp [hb, hurl]
        | some u =>
            rcases h l hfl with hc | hc | hc
            · exact absurd hc hbuf
            · rw [hurl] at hc; exact absurd hc (by simp)
            · simp [hb, hurl, hc]

/-- Loading a layer with no buffer, a URL, and a failing transport
rejects. -/
theorem ensureLayerLoaded_fails (loadOk : String → Bool) (st : MixerState)
    (m : String) (l : AudioLayer) (u : String) (hok : loadOk m = false)
    (hm : assocFind st.audioLayers m = some l) (hbuf : l.buffer = false)
    (hurl : l.url = some u) : (ensureLayerLoaded loadOk st m).2 = false := by
  unfold ensureLayerLoaded
  rw [hm]
  simp [hbuf, hurl, hok]

/-- `ensureLayerLoaded` never changes `startedParts`. -/
theorem ensureLayerLoaded_startedParts (loadOk : String → Bool) (st : MixerState)
    (lid : String) : (ensureLayerLoaded loadOk st lid).1.startedParts = st.startedParts := by
  rcases ensureLayerLoaded_state_cases loadOk st lid with h | ⟨l, _, _, _, h⟩ <;> rw [h] <;> rfl

/-- `ensureLayerLoaded` never changes the part registry. -/
theorem ensureLayerLoaded_partToLayers (loadOk : String → Bool) (st : MixerState)
    (lid : String) : (ensureLayerLoaded loadOk st lid).1.partToLayers = st.partToLayers := by
  rcases ensureLayerLoaded_state_cases loadOk st lid with h | ⟨l, _, _, _, h⟩ <;> rw [h] <;> rfl

/-- A layer whose transport fails keeps its record across any
`ensureLayerLoaded` call. -/
theorem ensureLayerLoaded_find_failed (loadOk : String → Bool) (st : MixerState)
    (lid m : String) (l : AudioLayer) (hok : loadOk m = false)
    (hm : assocFind st.audioLayers m = some l) :
    assocFind (ensureLayerLoaded loadOk st lid).1.audioLayers m = some l := by
  rcases ensureLayerLoaded_state_cases loadOk st lid with h | ⟨l', _, _, hok', h⟩
  · rw [h]; exact hm
  · rw [h]
    by_cases he : m = lid
    · subst he
      rw [hok] at hok'
      exact absurd hok' (by simp)
    · simp only [setLayer]
      rw [assocFind_assocSet_other _ _ _ _ he]
      exact hm

/-- `ensureLayerLoaded` preserves loadability of every layer. -/
theorem ensureLayerLoaded_preserves_loadable (loadOk : String → Bool) (st : MixerState)
    (lid lid' : String) (h : loadableLayer loadOk st lid') :
    loadableLayer loadOk (ensureLayerLoaded loadOk st lid).1 lid' := by
  rcases ensureLayerLoaded_state_cases loadOk st lid with hc | ⟨l, hfl, hbuf, hok, hc⟩
  · rw [hc]; exact h
  · rw [hc]
    intro l₀ hl₀
    simp only [setLayer] at hl₀
    by_cases he : lid' = lid
    · subst he
      rw [assocFind_assocSet_self] at hl₀
      obtain rfl := Option.some.inj hl₀
      exact Or.inl rfl
    · rw [assocFind_assocSet_other _ _ _ _ he] at hl₀
      exact h l₀ hl₀

/-- Loading the members of a part whose layers are all loadable
succeeds. -/
theorem loadPartMembers_ok (loadOk : String → Bool) :
    ∀ (ms : List String) (st : MixerState),
      (∀ lid ∈ ms, loadableLayer loadOk st lid) →
      (loadPartMembers loadOk st ms).2 = true := by
  intro ms
  induction ms with
  | nil => intro st _; rfl
  | cons lid rest ih =>
      intro st h
      unfold loadPartMembers
      dsimp only
      rw [ensureLayerLoaded_ok loadOk st lid (h lid (List.mem_cons_self _ _))]
      rw [ih _ (fun lid' hm => ensureLayerLoaded_preserves_loadable loadOk st lid lid'
        (h lid' (List.mem_cons_of_mem _ hm)))]
      rfl

/-- `loadPartMembers` preserves loadability of every layer. -/
theorem loadPartMembers_preserves_loadable (loadOk : String → Bool) :
    ∀ (ms : List String) (st : MixerState) (lid' : String),
      loadableLayer loadOk st lid' →
      loadableLayer loadOk (loadPartMembers loadOk st ms).1 lid' := by
  intro ms
  induction ms with
  | nil => intro st lid' h; exact h
  | cons lid rest ih =>
      intro st lid' h
      exact ih _ lid' (ensureLayerLoaded_preserves_loadable loadOk st lid lid' h)

/-- `loadPartMembers` never changes `startedParts`. -/
theorem loadPartMembers_startedParts (loadOk : String → Bool) :
    ∀ (ms : List String) (st : MixerState),
      (loadPartMembers loadOk st ms).1.startedParts = st.startedParts := by
  intro ms
  induction ms with
  | nil => intro st; rfl
  | cons lid rest ih =>
      intro st
      unfold loadPartMembers
      dsimp only
      rw [ih, ensureLayerLoaded_startedParts]

/-- `loadPartMembers` never changes the part registry. -/
theorem loadPartMembers_partToLayers (loadOk : String → Bool) :
    ∀ (ms : List String) (st : MixerState),
      (loadPartMembers loadOk st ms).1.partToLayers = st.partToLayers := by
  intro ms
  induction ms with
  | nil => intro st; rfl
  | cons lid rest ih =>
      intro st
      unfold loadPartMembers
      dsimp only
      rw [ih, ensureLayerLoaded_partToLayers]

/-- A layer whose transport fails keeps its record across
`loadPartMembers`. -/
theorem loadPartMembers_find_failed (loadOk : String → Bool) (m : String) (l : AudioLayer) :
    ∀ (ms : List String) (st : MixerState), loadOk m = false →
      assocFind st.audioLayers m = some l →
      assocFind (loadPartMembers loadOk st ms).1.audioLayers m = some l := by
  intro ms
  induction ms with
  | nil => intro st _ hm; exact hm
  | cons lid rest ih =>
      intro st hok hm
      unfold loadPartMembers
      dsimp only
      exact ih _ hok (ensureLayerLoaded_find_failed loadOk st lid m l hok hm)

/-- Loading the members of a part containing a permanently failing,
unloaded layer rejects. -/
theorem loadPartMembers_fails (loadOk : String → Bool) (m : String) (l : AudioLayer)
    (u : String) :
    ∀ (ms : List String) (st : MixerState), m ∈ ms → loadOk m = false →
      assocFind st.audioLayers m = some l → l.buffer = false → l.url = some u →
      (loadPartMembers loadOk st ms).2 = false := by
  intro ms
  induction ms with
  | nil => intro st hm; exact absurd hm (List.not_mem_nil m)
  | cons lid rest ih =>
      intro st hm hok hfind hbuf hurl
      unfold loadPartMembers
      dsimp only
      rcases List.mem_cons.mp hm with rfl | hmr
      · rw [ensureLayerLoaded_fails loadOk st m l u hok hfind hbuf hurl]
        simp
      · rw [ih _ hmr hok (ensureLayerLoaded_find_failed loadOk st lid m l hok hfind) hbuf hurl]
        simp

/-- `startPartLayer` leaves a layer's record unchanged or turns a
loaded, non-playing record into a started one (same buffer and url). -/
theorem startPartLayer_find_cases (st : MixerState) (lid lid' : String) :
    assocFind (startPartLayer st lid).audioLayers lid' = assocFind st.audioLayers lid'
    ∨ ∃ l, assocFind st.audioLayers lid' = some l ∧ l.buffer = true
        ∧ l.isPlaying = false
        ∧ assocFind (startPartLayer st lid).audioLayers lid'
          = some { l with source := some st.nextHandle, sourceLoop := true,
                          gain := some 0, isPlaying := true } := by
  by_cases he : lid' = lid
  · subst he
    cases hfl : assocFind st.audioLayers lid' with
    | none =>
        left
        unfold startPartLayer
        rw [hfl]
        exact hfl
    | some l =>
        cases hbuf : l.buffer with
        | false =>
            left
            unfold startPartLayer
            rw [hfl]
            simp [hbuf, hfl]
        | true =>
            cases hp : l.isPlaying with
            | true =>
                left
                rw [startPartLayer_noop_of_playing st lid' l hfl hp]
                exact hfl
            | false =>
                right
                exact ⟨l, rfl, hbuf, hp, (startPartLayer_starts st lid' l hfl hbuf hp).1⟩
  · left
    exact startPartLayer_find_other st lid lid' he

/-- `startPartLayer` preserves loadability of every layer. -/
theorem startPartLayer_preserves_loadable (loadOk : String → Bool) (st : MixerState)
    (lid lid' : String) (h : loadableLayer loadOk st lid') :
    loadableLayer loadOk (startPartLayer st lid) lid' := by
  rcases startPartLayer_find_cases st lid lid' with hc | ⟨l, hfl, hbuf, _, hc⟩
  · intro l₀ h₀
    rw [hc] at h₀
    exact h l₀ h₀
  · intro l₀ h₀
    rw [hc] at h₀
    obtain rfl := Option.some.inj h₀
    exact Or.inl hbuf

/-- The starting loop preserves loadability of every layer. -/
theorem startPartFold_preserves_loadable (loadOk : String → Bool) :
    ∀ (ls : List String) (st : MixerState) (lid' : String),
      loadableLayer loadOk st lid' →
      loadableLayer loadOk (ls.foldl startPartLayer st) lid' := by
  intro ls
  induction ls with
  | nil => intro st lid' h; exact h
  | cons hd t ih =>
      intro st lid' h
      exact ih _ lid' (startPartLayer_preserves_loadable loadOk st hd lid' h)

/-- An unloaded layer's record survives the starting loop unchanged. -/
theorem startPartFold_find_failed :
    ∀ (ls : List String) (st : MixerState) (lid' : String) (l : AudioLayer),
      assocFind st.audioLayers lid' = some l → l.buffer = false →
      assocFind (ls.foldl startPartLayer st).audioLayers lid' = some l := by
  intro ls
  induction ls with
  | nil => intro st lid' l h _; exact h
  | cons hd t ih =>
      intro st lid' l h hbuf
      rw [List.foldl_cons]
      rcases startPartLayer_find_cases st hd lid' with hc | ⟨l₁, hfl₁, hbuf₁, _, _⟩
      · exact ih _ lid' l (hc.trans h) hbuf
      · rw [h] at hfl₁
        obtain rfl := Option.some.inj hfl₁
        simp [hbuf] at hbuf₁

/-- The overall shape of `startPart`: the part registry is untouched,
`startedParts` at most gains the part id, and the layer table is either
untouched or the result of the starting loop. -/
theorem startPart_shape (st : MixerState) (p : String) :
    (startPart st p).partToLayers = st.partToLayers
    ∧ ((startPart st p).startedParts = st.startedParts
        ∨ (startPart st p).startedParts = p :: st.startedParts)
    ∧ ((startPart st p).audioLayers = st.audioLayers
        ∨ ∃ ls : List String,
            (startPart st p).audioLayers = (ls.foldl startPartLayer st).audioLayers) := by
  by_cases hp0 : p = ""
  · have h1 : startPart st p = st := by unfold startPart; rw [if_pos hp0]
    rw [h1]
    exact ⟨rfl, Or.inl rfl, Or.inl rfl⟩
  · by_cases hp1 : p ∈ st.startedParts
    · rw [startPart_noop_started st p hp1]
      exact ⟨rfl, Or.inl rfl, Or.inl rfl⟩
    · cases hfind : assocFind st.partToLayers p with
      | none =>
          rw [startPart_noop_nopart st p hfind]
          exact ⟨rfl, Or.inl rfl, Or.inl rfl⟩
      | some ls =>
          cases hemp : ls.isEmpty with
          | true =>
              rw [startPart_noop_empty st p ls hfind hemp]
              exact ⟨rfl, Or.inl rfl, Or.inl rfl⟩
          | false =>
              cases hwait : (notLoadedOf st ls).isEmpty with
              | false =>
                  rw [startPart_eq_waiting st p ls hp0 hp1 hfind hemp hwait]
                  exact ⟨rfl, Or.inl rfl, Or.inl rfl⟩
              | true =>
                  rw [startPart_eq_success st p ls hp0 hp1 hfind hemp hwait]
                  refine ⟨startPartFold_partToLayers ls st, Or.inr ?_, Or.inr ⟨ls, rfl⟩⟩
                  show p :: (ls.foldl startPartLayer st).startedParts = p :: st.startedParts
                  rw [startPartFold_startedParts]

/-- `startPart` preserves loadability of every layer. -/
theorem startPart_preserves_loadable (loadOk : String → Bool) (st : MixerState)
    (p lid' : String) (h : loadableLayer loadOk st lid') :
    loadableLayer loadOk (startPart st p) lid' := by
  rcases (startPart_shape st p).2.2 with hc | ⟨ls, hc⟩
  · intro l₀ h₀
    rw [hc] at h₀
    exact h l₀ h₀
  · intro l₀ h₀
    rw [hc] at h₀
    exact startPartFold_preserves_loadable loadOk ls st lid' h l₀ h₀

/-- An unloaded layer's record survives `startPart` unchanged. -/
theorem startPart_find_failed (st : MixerState) (p lid' : String) (l : AudioLayer)
    (hm : assocFind st.audioLayers lid' = some l) (hbuf : l.buffer = false) :
    assocFind (startPart st p).audioLayers lid' = some l := by
  rcases (startPart_shape st p).2.2 with hc | ⟨ls, hc⟩
  · rw [hc]; exact hm
  · rw [hc]
    exact startPartFold_find_failed ls st lid' l hm hbuf

/-- The Step 3 loop succeeds when every member of every pending part is
loadable. -/
theorem startPendingParts_ok (loadOk : String → Bool) :
    ∀ (parts : List String) (st : MixerState),
      (∀ pid ∈ parts, ∀ lid ∈ (assocFind st.partToLayers pid).getD [],
        loadableLayer loadOk st lid) →
      (startPendingParts loadOk st parts).2 = true := by
  intro parts
  induction parts with
  | nil => intro st _; rfl
  | cons pid rest ih =>
      intro st h
      unfold startPendingParts
      dsimp only
      rw [loadPartMembers_ok loadOk _ st (h pid (List.mem_cons_self _ _))]
      rw [if_pos rfl]
      apply ih
      intro pid' hm lid hlid
      have hpt : (startPart (loadPartMembers loadOk st
          ((assocFind st.partToLayers pid).getD [])).1 pid).partToLayers
          = st.partToLayers := by
        rw [(startPart_shape _ pid).1, loadPartMembers_partToLayers]
      rw [hpt] at hlid
      exact startPart_preserves_loadable loadOk _ pid lid
        (loadPartMembers_preserves_loadable loadOk _ st lid
          (h pid' (List.mem_cons_of_mem _ hm) lid hlid))

/-- A part with a member whose layer is unloaded, has a URL, and whose
transport permanently fails, is never added to `startedParts` by the
Step 3 loop. -/
theorem startPendingParts_not_started (loadOk : String → Bool) (m P u : String)
    (l : AudioLayer) :
    ∀ (parts : List String) (st : MixerState),
      loadOk m = false →
      assocFind st.audioLayers m = some l → l.buffer = false → l.url = some u →
      m ∈ (assocFind st.partToLayers P).getD [] →
      P ∉ st.startedParts →
      P ∉ (startPendingParts loadOk st parts).1.startedParts := by
  intro parts
  induction parts with
  | nil =>
      intro st _ _ _ _ _ hns
      exact hns
  | cons pid rest ih =>
      intro st hok hfind hbuf hurl hmem hns
      unfold startPendingParts
      dsimp only
      by_cases hpid : pid = P
      · subst hpid
        rw [loadPartMembers_fails loadOk m l u _ st hmem hok hfind hbuf hurl]
        rw [if_neg (by simp)]
        dsimp only
        rw [loadPartMembers_startedParts]
        exact hns
      · cases hlo : (loadPartMembers loadOk st ((assocFind st.partToLayers pid).getD [])).2 with
        | false =>
            rw [if_neg (by simp)]
            dsimp only
            rw [loadPartMembers_startedParts]
            exact hns
        | true =>
            rw [if_pos rfl]
            set st1 := (loadPartMembers loadOk st ((assocFind st.partToLayers pid).getD [])).1 with hst1
            have hfind1 : assocFind st1.audioLayers m = some l :=
              loadPartMembers_find_failed loadOk m l _ st hok hfind
            apply ih
            · exact hok
            · exact startPart_find_failed st1 pid m l hfind1 hbuf
            · exact hbuf
            · exact hurl
            · have hpt : (startPart st1 pid).partToLayers = st.partToLayers := by
                rw [(startPart_shape st1 pid).1, hst1, loadPartMembers_partToLayers]
              rw [hpt]
              exact hmem
            · intro hmemP
              rcases (startPart_shape st1 pid).2.1 with hc | hc
              · rw [hc, hst1, loadPartMembers_startedParts] at hmemP
                exact hns hmemP
              · rw [hc] at hmemP
                rcases List.mem_cons.mp hmemP with he | hmemP'
                · exact hpid he.symm
                · rw [hst1, loadPartMembers_startedParts] at hmemP'
                  exact hns hmemP'

/-- `playLayer` never changes `startedParts`. -/
theorem playLayer_startedParts (st : MixerState) (lid : String) (v : ℚ) :
    (playLayer st lid v).startedParts = st.startedParts := by
  unfold playLayer
  cases assocFind st.audioLayers lid with
  | none => rfl
  | some l =>
      dsimp only [setLayer]
      split_ifs <;> rfl

/-- `fadeLayer` never changes `startedParts`. -/
theorem fadeLayer_startedParts (st : MixerState) (lid : String) (v d : ℚ) :
    (fadeLayer st lid v d).startedParts = st.startedParts := by
  unfold fadeLayer
  cases assocFind st.audioLayers lid with
  | none => rfl
  | some l =>
      dsimp only [setLayer]
      split_ifs
      · rfl
      · cases assocFind st.layerGains lid <;> rfl

/-- One Step 4 iteration never changes `startedParts`. -/
theorem applyFadeBody_startedParts (targets : String → ℚ)
    (acc : MixerState × List (String × ℚ)) (lid : String) :
    (applyFadeBody targets acc lid).1.startedParts = acc.1.startedParts := by
  unfold applyFadeBody
  split_ifs with h1 h2
  · rfl
  · rfl
  · cases assocFind acc.1.audioLayers lid with
    | none => rfl
    | some layer =>
        dsimp only
        split_ifs with h3 h4 h5
        · exact playLayer_startedParts acc.1 lid (targets lid)
        · exact fadeLayer_startedParts acc.1 lid (targets lid) (2/5)
        · exact fadeLayer_startedParts acc.1 lid 0 (4/5)
        · rfl

/-- The whole Step 4 pass never changes `startedParts`. -/
theorem applyFadesFold_startedParts (targets : String → ℚ) :
    ∀ (keys : List String) (acc : MixerState × List (String × ℚ)),
      (keys.foldl (applyFadeBody targets) acc).1.startedParts = acc.1.startedParts := by
  intro keys
  induction keys with
  | nil => intro acc; rfl
  | cons k rest ih =>
      intro acc
      rw [List.foldl_cons, ih, applyFadeBody_startedParts]

/-- `applyFades` never changes `startedParts`. -/
theorem applyFades_startedParts (st : MixerState) (targets : String → ℚ) :
    (applyFades st targets).1.startedParts = st.startedParts := by
  unfold applyFades
  exact applyFadesFold_startedParts targets _ (st, [])

/-! ### Claims -/

/-- C1: for every registered non-oneshot zone and every position, the
per-zone contribution of `updateLocationAudio` is 0 beyond the radius,
`maxVolume` on the core disc `d ≤ max(0, radius − fadeDistance)`, and the
linear ramp `maxVolume * (radius − d) / fadeDistance` in between; for a
zone with radius 100, fadeDistance 20, maxVolume 1.0, distance 0 gives
1.0, distance 90 gives 0.5, distance 150 gives 0. -/
theorem claim_C1_zone_contribution :
    (∀ (z : Zone) (d : ℚ), zoneVolume z d = specZoneContribution z d)
    ∧ zoneVolume exZone1 0 = 1
    ∧ zoneVolume exZone1 90 = 1/2
    ∧ zoneVolume exZone1 150 = 0 :=
  ⟨zoneVolume_eq_spec,
   by norm_num [zoneVolume, exZone1, max_def],
   by norm_num [zoneVolume, exZone1, max_def],
   by norm_num [zoneVolume, exZone1, max_def]⟩

/-- C2: the target volume `updateLocationAudio` applies to a layer is the
maximum (never the sum) of the contributions of the non-oneshot zones
whose layer list contains it; two zones of maxVolume 0.5 and 0.8 both at
distance 0 yield target 0.8 for the shared layer. -/
theorem claim_C2_target_is_max :
    (∀ (zones : List Zone) (dist : Zone → ℚ) (lid : String),
        layerTargetVolume zones dist lid = specLayerTarget zones dist lid)
    ∧ layerTargetVolume [zHalfEx, zFourFifthsEx] (fun _ => 0) "L" = 4/5 :=
  ⟨layerTargetVolume_eq_spec,
   by norm_num [layerTargetVolume, zoneVolume, zHalfEx, zFourFifthsEx, max_def]⟩

/-- C3: a oneshot zone fires at most once per session — ids already in
`playedOneshots` survive every Step 1 pass and are never fired again,
everything fired is recorded as played (so a second pass over the same
in-range position fires nothing new for it), and `playedOneshots` is
cleared by an explicit `reset`. -/
theorem claim_C3_oneshot_at_most_once (zones : List Zone) (dist : Zone → ℚ)
    (played : List String) (zid : String) (st : MixerState) :
    (∀ s ∈ played, s ∈ (oneshotStep zones dist played).1)
    ∧ (zid ∈ played → zid ∉ (oneshotStep zones dist played).2)
    ∧ (zid ∈ (oneshotStep zones dist played).2 →
        zid ∈ (oneshotStep zones dist played).1)
    ∧ (zid ∈ (oneshotStep zones dist played).2 →
        zid ∉ (oneshotStep zones dist (oneshotStep zones dist played).1).2)
    ∧ (reset st).playedOneshots = [] := by
  have hmono : ∀ s ∈ played, s ∈ (oneshotStep zones dist played).1 :=
    fun s hs => oneshotFoldl_played_mono dist zones (played, []) hs
  have hnorefire : ∀ pl : List String, zid ∈ pl → zid ∉ (oneshotStep zones dist pl).2 := by
    intro pl hpl
    exact (oneshotFold_inv dist (fun acc => zid ∈ acc.1 ∧ zid ∉ acc.2)
      (fun acc z h => oneshotFoldStep_no_refire dist zid acc z h) zones (pl, [])
      ⟨hpl, List.not_mem_nil zid⟩).2
  have hfired : zid ∈ (oneshotStep zones dist played).2 →
      zid ∈ (oneshotStep zones dist played).1 := by
    intro hf
    exact oneshotFold_inv dist (fun acc => ∀ t ∈ acc.2, t ∈ acc.1)
      (fun acc z h => oneshotFoldStep_fired_played dist acc z h) zones (played, [])
      (fun t ht => absurd ht (List.not_mem_nil t)) zid hf
  exact ⟨hmono, hnorefire played, hfired, fun hf => hnorefire _ (hfired hf), rfl⟩

/-- C3 witness: an already-played oneshot does not re-fire on the same
in-range position, and reset clears the played set. -/
theorem claim_C3_witness :
    "oneshot_2" ∉ (oneshotStep [oneshot2Ex] (fun _ => 0) ["oneshot_2"]).2
    ∧ (reset emptyMixerState).playedOneshots = [] :=
  ⟨(claim_C3_oneshot_at_most_once [oneshot2Ex] (fun _ => 0) ["oneshot_2"]
      "oneshot_2" emptyMixerState).2.1 (by simp),
   (claim_C3_oneshot_at_most_once [oneshot2Ex] (fun _ => 0) ["oneshot_2"]
      "oneshot_2" emptyMixerState).2.2.2.2⟩

/-- C4 counterexample: a part member that is already playing does not
acquire a fresh source when its part starts — `startPart` on `c4State`
marks the part started yet leaves `L1` with its old non-looping source
and nonzero gain, contradicting the claim that every member acquires a
fresh looping source with gain 0. -/
theorem claim_C4_counterexample :
    "p" ∈ (startPart c4State "p").startedParts
    ∧ assocFind (startPart c4State "p").audioLayers "L1"
        = assocFind c4State.audioLayers "L1"
    ∧ (∀ l, assocFind c4State.audioLayers "L1" = some l →
        l.gain ≠ some 0 ∧ l.sourceLoop = false ∧ l.isPlaying = true) := by
  have hfind : assocFind c4State.audioLayers "L1"
      = some { buffer := true, source := some 5, sourceLoop := false,
               gain := some (9/10), isPlaying := true, volume := 1, url := none } := by
    simp [c4State, assocFind]
  have hnoop : startPartLayer c4State "L1" = c4State :=
    startPartLayer_noop_of_playing c4State "L1" _ hfind rfl
  have hsucc := startPart_eq_success c4State "p" ["L1"]
    (by simp) (by simp [c4State]) (by simp [c4State, assocFind]) rfl
    (by simp [notLoadedOf, c4State, assocFind])
  rw [hsucc]
  refine ⟨?_, ?_, ?_⟩
  · simp [List.foldl_cons, hnoop]
  · simp [List.foldl_cons, hnoop]
  · intro l hl
    rw [hfind] at hl
    obtain rfl := Option.some.inj hl
    refine ⟨?_, rfl, rfl⟩
    intro hg
    have := Option.some.inj hg
    norm_num at this

/-- C4 (amended): `startPart` is a no-op when the part is already started
or has no registered members; when any member lacks a buffer it only
writes its waiting report (layers, started set and handle counter
untouched); otherwise it marks the part started and every member that is
not already playing acquires a fresh looping source (a newly allocated
handle) with gain 0 and is marked playing, while members already playing
are left exactly unchanged; and a second call on the same part id changes
nothing. -/
theorem claim_C4_startPart (st : MixerState) (p : String) (ls : List String)
    (lid₀ : String) :
    (p ∈ st.startedParts → startPart st p = st)
    ∧ (assocFind st.partToLayers p = none → startPart st p = st)
    ∧ (assocFind st.partToLayers p = some [] → startPart st p = st)
    ∧ (p ≠ "" → p ∉ st.startedParts → assocFind st.partToLayers p = some ls →
        lid₀ ∈ ls → (∀ l, assocFind st.audioLayers lid₀ = some l → l.buffer = false) →
        (startPart st p).audioLayers = st.audioLayers
        ∧ (startPart st p).startedParts = st.startedParts
        ∧ (startPart st p).nextHandle = st.nextHandle)
    ∧ (p ≠ "" → p ∉ st.startedParts → assocFind st.partToLayers p = some ls →
        (∀ lid ∈ ls, ∃ l, assocFind st.audioLayers lid = some l ∧ l.buffer = true) →
        ls ≠ [] →
        p ∈ (startPart st p).startedParts
        ∧ (∀ lid ∈ ls, ∃ l',
            assocFind (startPart st p).audioLayers lid = some l'
            ∧ l'.isPlaying = true
            ∧ (∀ l, assocFind st.audioLayers lid = some l → l.isPlaying = false →
                l'.sourceLoop = true ∧ l'.gain = some 0
                ∧ ∃ h, l'.source = some h ∧ st.nextHandle ≤ h)
            ∧ (∀ l, assocFind st.audioLayers lid = some l → l.isPlaying = true →
                l' = l)))
    ∧ startPart (startPart st p) p = startPart st p := by
  refine ⟨startPart_noop_started st p, startPart_noop_nopart st p,
    fun h => startPart_noop_empty st p [] h rfl, ?_, ?_, startPart_idem st p⟩
  · intro hp0 hp1 hfind hmem hun
    have hemp : ls.isEmpty = false := by
      cases ls with
      | nil => exact absurd hmem (List.not_mem_nil lid₀)
      | cons a t => rfl
    have hpred : (fun lid =>
        match assocFind st.audioLayers lid with
        | none => true
        | some l => !l.buffer) lid₀ = true := by
      cases hfl : assocFind st.audioLayers lid₀ with
      | none => simp [hfl]
      | some l => simp [hfl, hun l hfl]
    have hwait : (notLoadedOf st ls).isEmpty = false := by
      have hmf : lid₀ ∈ notLoadedOf st ls := List.mem_filter.mpr ⟨hmem, hpred⟩
      cases hnl : notLoadedOf st ls with
      | nil => rw [hnl] at hmf; exact absurd hmf (List.not_mem_nil lid₀)
      | cons a t => rfl
    rw [startPart_eq_waiting st p ls hp0 hp1 hfind hemp hwait]
    exact ⟨rfl, rfl, rfl⟩
  · intro hp0 hp1 hfind hload hne
    have hemp : ls.isEmpty = false := by
      cases ls with
      | nil => exact absurd rfl hne
      | cons a t => rfl
    have hall : (notLoadedOf st ls).isEmpty = true := by
      have hnil : notLoadedOf st ls = [] := by
        unfold notLoadedOf
        rw [List.filter_eq_nil_iff]
        intro lid hmem
        obtain ⟨l, hfl, hbuf⟩ := hload lid hmem
        simp [hfl, hbuf]
      rw [hnil]
      rfl
    rw [startPart_eq_success st p ls hp0 hp1 hfind hemp hall]
    refine ⟨List.mem_cons_self _ _, ?_⟩
    intro lid hmem
    exact startPartFold_main ls st hload lid hmem

/-- C4 witness: the amended claim on a one-member part whose loaded
member is not yet playing — the part starts, and a second call changes
nothing. -/
theorem claim_C4_witness :
    "p" ∈ (startPart c4Good "p").startedParts
    ∧ startPart (startPart c4Good "p") "p" = startPart c4Good "p" :=
  ⟨((claim_C4_startPart c4Good "p" ["L1"] "L1").2.2.2.2.1
      (by simp) (by simp [c4Good]) (by simp [c4Good, assocFind])
      (by
        intro lid hmem
        rw [List.mem_singleton.mp hmem]
        exact ⟨{ buffer := true, source := none, sourceLoop := false,
                 gain := none, isPlaying := false, volume := 1, url := none },
               by simp [c4Good, assocFind], rfl⟩)
      (by simp)).1,
   (claim_C4_startPart c4Good "p" ["L1"] "L1").2.2.2.2.2⟩

/-- C8 counterexample: with layer `a` (member of pending part `P`)
failing to load and layer `b` playing at target volume 1, the call
aborts — the fade trace is empty, so no fade is applied to `b` on that
position sample, contradicting the claim that a failed load does not
abort the per-tick processing. -/
theorem claim_C8_counterexample :
    (updateLocationAudioMusic c8Zones (fun _ => 0) (fun _ => false) c8State).aborted = true
    ∧ (updateLocationAudioMusic c8Zones (fun _ => 0) (fun _ => false) c8State).fades = []
    ∧ layerTargetVolume c8Zones (fun _ => 0) "b" = 1
    ∧ (∀ l, assocFind c8State.audioLayers "b" = some l → l.isPlaying = true) := by
  have hba : ("b" : String) ≠ "a" := by decide
  have hab : ("a" : String) ≠ "b" := by decide
  have hPe : ("P" : String) ≠ "" := by decide
  have hparts : partsToStart c8State c8Zones (fun _ => 0) = ["P"] := by
    norm_num [partsToStart, musicLayerIds, insertUniq, layerTargetVolume, zoneVolume,
      c8Zones, c8State, assocFind, max_def, hba, hab, hPe]
  have hmem8 : assocFind c8State.audioLayers "a" = some layerA8 := by
    simp [c8State, assocFind]
  have hfail : (loadPartMembers (fun _ => false) c8State ["a"]).2 = false :=
    loadPartMembers_fails (fun _ => false) "a" layerA8 "audio/a.mp3" ["a"] c8State
      (List.mem_singleton_self "a") rfl hmem8 rfl rfl
  have hgd : (assocFind c8State.partToLayers "P").getD [] = ["a"] := by
    simp [c8State, assocFind]
  have hsp : (startPendingParts (fun _ => false) c8State ["P"]).2 = false := by
    unfold startPendingParts
    dsimp only
    rw [hgd, hfail, if_neg (by simp)]
  refine ⟨?_, ?_, ?_, ?_⟩
  · unfold updateLocationAudioMusic
    dsimp only
    rw [hparts, hsp, if_neg (by simp)]
  · unfold updateLocationAudioMusic
    dsimp only
    rw [hparts, hsp, if_neg (by simp)]
  · norm_num [layerTargetVolume, zoneVolume, c8Zones, max_def, hba, hab]
  · intro l hl
    simp [c8State, assocFind] at hl
    rw [← hl]

/-- C8 (amended): a load failure is contained as long as the failed
layer is not a member of a part being started on this sample — if every
member of every pending part is loadable, the tick completes
(`aborted = false`); and a part containing an unloaded member with a
permanently failing URL is never started.  When such a member belongs to
a pending part, however, `updateLocationAudio` rejects on that sample
and the fade pass is skipped (see the counterexample). -/
theorem claim_C8_contained_failure (zones : List Zone) (dist : Zone → ℚ)
    (loadOk : String → Bool) (st : MixerState) (m P u : String) (l : AudioLayer) :
    ((∀ pid ∈ partsToStart st zones dist,
        ∀ lid ∈ (assocFind st.partToLayers pid).getD [], loadableLayer loadOk st lid) →
      (updateLocationAudioMusic zones dist loadOk st).aborted = false)
    ∧ (loadOk m = false → assocFind st.audioLayers m = some l → l.buffer = false →
        l.url = some u → m ∈ (assocFind st.partToLayers P).getD [] →
        P ∉ st.startedParts →
        P ∉ (updateLocationAudioMusic zones dist loadOk st).state.startedParts) := by
  constructor
  · intro h
    unfold updateLocationAudioMusic
    dsimp only
    rw [startPendingParts_ok loadOk _ st h, if_pos rfl]
  · intro hok hfind hbuf hurl hmem hns
    have hP := startPendingParts_not_started loadOk m P u l
      (partsToStart st zones dist) st hok hfind hbuf hurl hmem hns
    unfold updateLocationAudioMusic
    dsimp only
    cases hr : (startPendingParts loadOk st (partsToStart st zones dist)).2 with
    | true =>
        rw [if_pos rfl]
        dsimp only
        intro hmemP
        rw [applyFades_startedParts] at hmemP
        exact hP hmemP
    | false =>
        rw [if_neg (by simp)]
        exact hP

/-- C8 witness: with a succeeding transport the tick completes, and with
a failing transport the part `P` of the failed member is never
started. -/
theorem claim_C8_witness :
    (updateLocationAudioMusic c8Zones (fun _ => 0) (fun _ => true) c8State).aborted = false
    ∧ "P" ∉ (updateLocationAudioMusic c8Zones (fun _ => 0) (fun _ => false)
        c8State).state.startedParts :=
  ⟨(claim_C8_contained_failure c8Zones (fun _ => 0) (fun _ => true) c8State
      "a" "P" "audio/a.mp3" layerA8).1
      (fun _ _ lid _ => fun _ _ => Or.inr (Or.inr rfl)),
   (claim_C8_contained_failure c8Zones (fun _ => 0) (fun _ => false) c8State
      "a" "P" "audio/a.mp3" layerA8).2
      rfl (by simp [c8State, assocFind, layerA8]) rfl rfl
      (by simp [c8State, assocFind]) (by simp [c8State])⟩

/-- C5: the finale oneshot cannot fire before `oneshot_9` has fired
(anything that puts the finale in the fired list also has `oneshot_9`
played), and once `oneshot_9` is played, evaluating an in-range position
for the finale zone fires it. -/
theorem claim_C5_finale_gating (zones : List Zone) (dist : Zone → ℚ)
    (played : List String) (zf : Zone) :
    ("oneshot_finale" ∈ (oneshotStep zones dist played).2 →
        "oneshot_9" ∈ (oneshotStep zones dist played).1)
    ∧ (zf ∈ zones → zf.isOneshot = true → zf.id = "oneshot_finale" →
        dist zf ≤ triggerRadius zf → "oneshot_9" ∈ played →
        "oneshot_finale" ∉ played →
        "oneshot_finale" ∈ (oneshotStep zones dist played).2) := by
  constructor
  · intro hf
    exact oneshotFold_inv dist
      (fun acc => "oneshot_finale" ∈ acc.2 → "oneshot_9" ∈ acc.1)
      (fun acc z h => oneshotFoldStep_finale_gate dist acc z h) zones (played, [])
      (fun h => absurd h (List.not_mem_nil _)) hf
  · intro hmem hone hid hd h9 hnp
    exact oneshotFold_finale_fires dist zf hone hid hd zones (played, []) hmem h9
      (Or.inr hnp)

/-- C5 witness: with `oneshot_9` played, an in-range evaluation fires the
finale zone. -/
theorem claim_C5_witness :
    "oneshot_finale" ∈ (oneshotStep [finaleZoneEx] (fun _ => 0) ["oneshot_9"]).2 :=
  (claim_C5_finale_gating [finaleZoneEx] (fun _ => 0) ["oneshot_9"] finaleZoneEx).2
    (by simp) rfl rfl (by norm_num [triggerRadius, finaleZoneEx, max_def])
    (by simp) (by simp)

/-- C9 counterexample: with the ordinary oneshot `oneshot_1` already
fired (and the finale not fired), a position inside the radius of the
not-yet-fired non-finale zone `oneshot_2` does trigger it — contradicting
the claim that after any ordinary oneshot fires no further non-finale
oneshot fires. -/
theorem claim_C9_counterexample :
    "oneshot_1" ∈ (["oneshot_1"] : List String)
    ∧ "oneshot_2" ∈ (oneshotStep [oneshot2Ex] (fun _ => 0) ["oneshot_1"]).2 := by
  refine ⟨by simp, ?_⟩
  norm_num [oneshotStep, oneshotFoldStep, oneshotZoneStep, triggerRadius,
    oneshot2Ex, max_def]
  decide

/-- C9 (amended): only the finale ends the session — once
`oneshot_finale` is in `playedOneshots`, a Step 1 pass fires nothing at
all and leaves `playedOneshots` unchanged; an ordinary oneshot's firing
does not block the remaining oneshots. -/
theorem claim_C9_amended (zones : List Zone) (dist : Zone → ℚ) (played : List String)
    (h : "oneshot_finale" ∈ played) :
    oneshotStep zones dist played = (played, []) := by
  unfold oneshotStep
  have hfold : ∀ (zs : List Zone) (acc : List String × List String),
      "oneshot_finale" ∈ acc.1 → zs.foldl (oneshotFoldStep dist) acc = acc := by
    intro zs
    induction zs with
    | nil => intro acc _; rfl
    | cons z rest ih =>
        intro acc hacc
        rw [List.foldl_cons, oneshotFoldStep_noop_after_finale dist acc z hacc]
        exact ih acc hacc
  exact hfold zones (played, []) h

/-- C9 witness: after the finale has played, an in-range pass over an
unfired ordinary oneshot fires nothing. -/
theorem claim_C9_witness :
    oneshotStep [oneshot2Ex] (fun _ => 0) ["oneshot_finale"]
      = (["oneshot_finale"], []) :=
  claim_C9_amended [oneshot2Ex] (fun _ => 0) ["oneshot_finale"] (by simp)

/-- C6 counterexample: `addAudioZone` does not reject a zone definition
with radius ≤ 0 — registering radius −1 into an empty registry leaves the
collection changed (the zone is added), contradicting the claim. -/
theorem claim_C6_counterexample :
    cfgBadRadius.radius ≤ 0 ∧ addAudioZone [] cfgBadRadius ≠ [] :=
  ⟨by norm_num [cfgBadRadius], by simp [addAudioZone]⟩

/-- C6 (amended): `addAudioZone` performs no geometry validation — every
zone definition, including one with radius ≤ 0, is appended to the
registry with its radius unchanged. -/
theorem claim_C6_amended (zones : List Zone) (config : ZoneConfig) :
    (addAudioZone zones config).length = zones.length + 1
    ∧ normalizeZone config ∈ addAudioZone zones config
    ∧ (normalizeZone config).radius = config.radius :=
  ⟨by simp [addAudioZone], by simp [addAudioZone], rfl⟩

/-- C7 counterexample: a zone registered with explicit `fadeDistance: 0`
and `maxVolume: 0` does not keep them — `addAudioZone` stores
fadeDistance 50 and maxVolume 1, contradicting the claim. -/
theorem claim_C7_counterexample :
    (normalizeZone cfgZeroFade).fadeDistance = 50
    ∧ (normalizeZone cfgZeroFade).maxVolume = 1 := by
  norm_num [normalizeZone, jsNumOr, cfgZeroFade]

/-- C7 (amended): `addAudioZone` applies the defaults whenever the field
is absent or the falsy number 0 — fadeDistance becomes 50 and maxVolume
becomes 1.0 in both cases, while nonzero explicit values are kept — so no
registered zone ever has fadeDistance 0 and the hard on/off disc is
unreachable through an explicit 0. -/
theorem claim_C7_amended (config : ZoneConfig) :
    ((config.fadeDistance = none ∨ config.fadeDistance = some 0) →
        (normalizeZone config).fadeDistance = 50)
    ∧ ((config.maxVolume = none ∨ config.maxVolume = some 0) →
        (normalizeZone config).maxVolume = 1)
    ∧ (∀ v : ℚ, config.fadeDistance = some v → v ≠ 0 →
        (normalizeZone config).fadeDistance = v)
    ∧ (∀ v : ℚ, config.maxVolume = some v → v ≠ 0 →
        (normalizeZone config).maxVolume = v)
    ∧ (normalizeZone config).fadeDistance ≠ 0 := by
  refine ⟨?_, ?_, ?_, ?_, normalize_fadeDistance_ne_zero config⟩
  · rintro (h | h) <;> simp [normalizeZone, jsNumOr, h]
  · rintro (h | h) <;> simp [normalizeZone, jsNumOr, h]
  · intro v hv hvz; simp [normalizeZone, jsNumOr, hv, hvz]
  · intro v hv hvz; simp [normalizeZone, jsNumOr, hv, hvz]

/-- C7 witness: the amended claim evaluated on a definition carrying
explicit zeros. -/
theorem claim_C7_witness :
    (normalizeZone cfgZeroFade).fadeDistance = 50
    ∧ (normalizeZone cfgZeroFade).maxVolume = 1 :=
  ⟨(claim_C7_amended cfgZeroFade).1 (Or.inr rfl),
   (claim_C7_amended cfgZeroFade).2.1 (Or.inr rfl)⟩

/-- C10: the per-zone volume computation is total for every zone stored
by `addAudioZone`: the checked computation (which signals a division by
`fadeDistance = 0` in the ramp branch) always returns the unchecked
value, because `addAudioZone` replaces a falsy fadeDistance with 50; and
even at fadeDistance 0 the ramp branch is unreachable for a nonnegative
distance. -/
theorem claim_C10_no_division_by_zero (config : ZoneConfig) (z : Zone) (d : ℚ) :
    zoneVolumeChecked (normalizeZone config) d
      = some (zoneVolume (normalizeZone config) d)
    ∧ (normalizeZone config).fadeDistance ≠ 0
    ∧ (0 ≤ d → z.fadeDistance = 0 → zoneVolumeChecked z d = some (zoneVolume z d)) := by
  refine ⟨?_, normalize_fadeDistance_ne_zero config, ?_⟩
  · simp only [zoneVolumeChecked, zoneVolume]
    split_ifs with h1 h2 h3
    · rfl
    · exact absurd h3 (normalize_fadeDistance_ne_zero config)
    · rfl
    · rfl
  · intro hd hfd
    simp only [zoneVolumeChecked, zoneVolume, hfd, sub_zero]
    split_ifs with h1 h2
    · rfl
    · exact absurd (le_trans h1 (le_max_right 0 z.radius)) h2
    · rfl

/-- C10 witness: the totality statement evaluated at the hard-disc zone
(fadeDistance 0) and distance 5. -/
theorem claim_C10_witness :
    zoneVolumeChecked zHardDisc 5 = some (zoneVolume zHardDisc 5) :=
  (claim_C10_no_division_by_zero cfgZeroFade zHardDisc 5).2.2 (by norm_num) rfl

end TheWalk
